import Mathlib

/-
Verification of the ssh-hypervisor VM manager against its specification.

Shallow embedding conventions:
  * IPv4 addresses are 32-bit values represented as `Nat` (the Go code works
    on 4-byte `net.IP` slices; byte k of an address v is `v / 256^(3-k) % 256`).
  * The Go maps `vms` and `vmRefs` are association lists with Go map
    semantics (assignment replaces the entry for the key, `delete` removes it).
  * Fallible operations return `Except`/`Option` together with the new state;
    external effects (directories, TAP devices, the firecracker monitor
    process) are tracked as finite sets in the state, and external failures
    (mkdir, file copy, tuntap creation, machine start, ...) are injected
    through a `World` record of success flags.
-/

set_option maxHeartbeats 1000000


/-! # IP pool (internal/vm/ippool.go) -/

/-- An IPv4 network as produced by `net.ParseCIDR` and stored in
`IPPool.network`: `base` is the (already masked) network address as a 32-bit
value, `maskOnes` the CIDR mask length. -/
structure IPNet where
  base : Nat
  maskOnes : Nat
deriving DecidableEq, Repr

/-- Number of addresses in the network. -/
def IPNet.size (n : IPNet) : Nat := 2 ^ (32 - n.maskOnes)

/-- `isBroadcast` compares against `network.IP | ^network.Mask`, i.e. the
masked base with all host bits set. -/
def IPNet.broadcast (n : IPNet) : Nat := n.base + n.size - 1

/-- `isGateway` / `IPPool.Gateway` compare against `inc(network.IP.Mask(Mask))`:
the masked base incremented by one; byte-wise `inc` wraps around at 2^32. -/
def IPNet.gateway (n : IPNet) : Nat := (n.base + 1) % 2 ^ 32

/-- The mask `net.IP(p.network.Mask)` as a 32-bit value. -/
def IPNet.maskValue (n : IPNet) : Nat := 2 ^ 32 - n.size

/-- The list built by the generation loop of `NewIPPool`: every address of the
network in increasing order, skipping the network address, the broadcast
address and the gateway.  (The Go loop `for ip := network.IP.Mask(...);
network.Contains(ip); inc(ip)` visits exactly `base, base+1, ...,
base+size-1` for a masked base and mask length between 1 and 32.) -/
def availableList (n : IPNet) : List Nat :=
  ((List.range n.size).map (fun i => n.base + i)).filter
    (fun ip => decide (ip ≠ n.base) && decide (ip ≠ n.broadcast) &&
      decide (ip ≠ n.gateway))

/-- State of `IPPool`: the precomputed `available` list and the set of
currently allocated addresses (the Go `allocated map[string]bool`, keyed by
the dotted-decimal rendering, which is injective on 32-bit values). -/
structure IPPool where
  network : IPNet
  allocated : Finset Nat
  available : List Nat
deriving DecidableEq

/-- `NewIPPool`: build the available list; fail when it is empty. -/
def NewIPPool (network : IPNet) : Option IPPool :=
  let avail := availableList network
  if avail.isEmpty then none
  else some { network := network, allocated := ∅, available := avail }

/-- `IPPool.Allocate`: scan `available` in order and return the first address
that is not in `allocated`, marking it allocated; when every address is
allocated, return an error (`none`) and leave the pool unchanged. -/
def IPPool.Allocate (p : IPPool) : Option Nat × IPPool :=
  match p.available.find? (fun ip => !(decide (ip ∈ p.allocated))) with
  | some ip => (some ip, { p with allocated := insert ip p.allocated })
  | none => (none, p)

/-- `IPPool.Release`: `delete(p.allocated, ipStr)`. -/
def IPPool.Release (p : IPPool) (ip : Nat) : IPPool :=
  { p with allocated := p.allocated.erase ip }

/-- `IPPool.IsAllocated`. -/
def IPPool.IsAllocated (p : IPPool) (ip : Nat) : Bool :=
  decide (ip ∈ p.allocated)

/-- `IPPool.Available`: `len(p.available) - len(p.allocated)` (Go `int`). -/
def IPPool.Available (p : IPPool) : Int :=
  (p.available.length : Int) - (p.allocated.card : Int)

/-- `IPPool.Gateway`. -/
def IPPool.Gateway (p : IPPool) : Nat := p.network.gateway

/-- `IPPool.Netmask`. -/
def IPPool.Netmask (p : IPPool) : Nat := p.network.maskValue


/-! ## Find-first characterisation used for Allocate -/

theorem find?_first_index {p : Nat → Bool} :
    ∀ (l : List Nat) (x : Nat), l.find? p = some x →
      ∃ i, ∃ h : i < l.length, l.get ⟨i, h⟩ = x ∧ p x = true ∧
        ∀ j, ∀ hj : j < l.length, j < i → p (l.get ⟨j, hj⟩) = false
  | [], x, h => by simp [List.find?] at h
  | a :: t, x, h => by
    by_cases hpa : p a = true
    · refine ⟨0, by simp, ?_, ?_, ?_⟩
      · simp only [List.find?, hpa] at h
        simpa using h
      · simp only [List.find?, hpa] at h
        have hax : a = x := by simpa using h
        subst hax
        exact hpa
      · intro j hj hj0
        omega
    · have hfa : p a = false := by
        cases hp : p a
        · rfl
        · exact absurd hp hpa
      simp only [List.find?, hfa] at h
      obtain ⟨i, hi, hget, hpx, hprev⟩ := find?_first_index t x h
      refine ⟨i + 1, by simpa using Nat.succ_lt_succ hi, by simpa using hget,
        hpx, ?_⟩
      intro j hj hji
      match j, hj with
      | 0, _ => exact hfa
      | j + 1, hj =>
        have hj' : j < t.length := by simpa using Nat.lt_of_succ_lt_succ hj
        have := hprev j hj' (by omega)
        simpa using this

theorem Allocate_eq_of_find?_some {p : IPPool} {x : Nat}
    (h : p.available.find? (fun ip => !(decide (ip ∈ p.allocated))) = some x) :
    p.Allocate = (some x, { p with allocated := insert x p.allocated }) := by
  unfold IPPool.Allocate
  rw [h]

theorem Allocate_eq_of_find?_none {p : IPPool}
    (h : p.available.find? (fun ip => !(decide (ip ∈ p.allocated))) = none) :
    p.Allocate = (none, p) := by
  unfold IPPool.Allocate
  rw [h]

/-- C3: `Allocate` returns the lowest-indexed address of the precomputed
available list that is not currently allocated and inserts it into the
allocated set; when every address of the list is allocated it returns an
error and leaves the pool state unchanged. -/
theorem Allocate_lowest_free (p : IPPool) :
    (∀ x, (p.Allocate).fst = some x →
      (p.Allocate).snd.available = p.available ∧
      (p.Allocate).snd.network = p.network ∧
      (p.Allocate).snd.allocated = insert x p.allocated ∧
      x ∉ p.allocated ∧
      ∃ i, ∃ h : i < p.available.length, p.available.get ⟨i, h⟩ = x ∧
        ∀ j, ∀ hj : j < p.available.length, j < i →
          p.available.get ⟨j, hj⟩ ∈ p.allocated) ∧
    ((p.Allocate).fst = none →
      (p.Allocate).snd = p ∧ ∀ ip ∈ p.available, ip ∈ p.allocated) := by
  constructor
  · intro x hx
    cases hfind : p.available.find? (fun ip => !(decide (ip ∈ p.allocated))) with
    | none =>
      rw [Allocate_eq_of_find?_none hfind] at hx
      cases hx
    | some y =>
      rw [Allocate_eq_of_find?_some hfind] at hx ⊢
      have hyx : y = x := by simpa using hx
      subst hyx
      obtain ⟨i, hi, hget, hpy, hprev⟩ := find?_first_index _ _ hfind
      have hnotmem : y ∉ p.allocated := by simpa using hpy
      refine ⟨rfl, rfl, rfl, hnotmem, i, hi, hget, ?_⟩
      intro j hj hji
      have := hprev j hj hji
      simpa using this
  · intro hx
    cases hfind : p.available.find? (fun ip => !(decide (ip ∈ p.allocated))) with
    | some y =>
      rw [Allocate_eq_of_find?_some hfind] at hx
      cases hx
    | none =>
      rw [Allocate_eq_of_find?_none hfind]
      refine ⟨rfl, ?_⟩
      intro ip hip
      have := List.find?_eq_none.mp hfind ip hip
      simpa using this

/-- Witness for C3 at a concrete pool: the /28 network 192.168.100.0/28. -/
def net28 : IPNet := { base := 3232261120, maskOnes := 28 }

/-- The pool `NewIPPool` builds on 192.168.100.0/28. -/
def pool28 : IPPool :=
  { network := net28, allocated := ∅, available := availableList net28 }

theorem Allocate_lowest_free_witness :
    (pool28.Allocate).snd.available = pool28.available ∧
    (pool28.Allocate).snd.network = pool28.network ∧
    (pool28.Allocate).snd.allocated = insert 3232261122 pool28.allocated ∧
    3232261122 ∉ pool28.allocated ∧
    (∃ i, ∃ h : i < pool28.available.length,
      pool28.available.get ⟨i, h⟩ = 3232261122 ∧
      ∀ j, ∀ hj : j < pool28.available.length, j < i →
        pool28.available.get ⟨j, hj⟩ ∈ pool28.allocated) :=
  (Allocate_lowest_free pool28).1 3232261122 (by decide)

/-- C8: an `Allocate` that returns address x followed by `Release x` restores
the pool to exactly its pre-Allocate state, and `Release` of an address that
is not allocated is a no-op (so Release is idempotent). -/
theorem Allocate_Release_roundtrip (p : IPPool) :
    (∀ x, (p.Allocate).fst = some x → ((p.Allocate).snd.Release x) = p) ∧
    (∀ ip, ip ∉ p.allocated → p.Release ip = p) ∧
    (∀ ip, (p.Release ip).Release ip = p.Release ip) := by
  refine ⟨?_, ?_, ?_⟩
  · intro x hx
    cases hfind : p.available.find? (fun ip => !(decide (ip ∈ p.allocated))) with
    | none =>
      rw [Allocate_eq_of_find?_none hfind] at hx
      cases hx
    | some y =>
      rw [Allocate_eq_of_find?_some hfind] at hx ⊢
      have hyx : y = x := by simpa using hx
      subst hyx
      have hmem : y ∉ p.allocated := by
        have := List.find?_some hfind
        simpa using this
      unfold IPPool.Release
      simp [Finset.erase_insert hmem]
  · intro ip hip
    unfold IPPool.Release
    simp [Finset.erase_eq_of_not_mem hip]
  · intro ip
    unfold IPPool.Release
    simp

theorem Allocate_Release_roundtrip_witness :
    ((pool28.Allocate).snd.Release 3232261122) = pool28 :=
  (Allocate_Release_roundtrip pool28).1 3232261122 (by decide)


/-! ## Counting the available list (for C5) -/

theorem IPNet.size_ge_four {n : IPNet} (h30 : n.maskOnes ≤ 30) : 4 ≤ n.size := by
  have h2 : 2 ≤ 32 - n.maskOnes := by omega
  calc (4 : Nat) = 2 ^ 2 := by norm_num
  _ ≤ 2 ^ (32 - n.maskOnes) := Nat.pow_le_pow_right (by norm_num) h2
  _ = n.size := rfl

theorem IPNet.base_add_size_le {n : IPNet} (hb : n.base < 2 ^ 32)
    (hm : n.base % n.size = 0) : n.base + n.size ≤ 2 ^ 32 := by
  have hdvd : n.size ∣ 2 ^ 32 := by
    have : 32 - n.maskOnes ≤ 32 := by omega
    exact pow_dvd_pow 2 this
  have hdb : n.size ∣ n.base := Nat.dvd_of_mod_eq_zero hm
  obtain ⟨k, hk⟩ := hdb
  obtain ⟨m, hmm⟩ := hdvd
  have hpos : 0 < n.size := Nat.pos_pow_of_pos _ (by norm_num)
  have hkm : k < m := by
    by_contra hge
    push_neg at hge
    have : n.size * m ≤ n.size * k := Nat.mul_le_mul_left _ hge
    omega
  have : n.size * (k + 1) ≤ n.size * m := Nat.mul_le_mul_left _ hkm
  calc n.base + n.size = n.size * (k + 1) := by rw [hk]; ring
  _ ≤ n.size * m := this
  _ = 2 ^ 32 := hmm.symm

theorem IPNet.gateway_eq {n : IPNet} (h30 : n.maskOnes ≤ 30)
    (hb : n.base < 2 ^ 32) (hm : n.base % n.size = 0) :
    n.gateway = n.base + 1 := by
  have h4 := IPNet.size_ge_four h30
  have hle := IPNet.base_add_size_le hb hm
  unfold IPNet.gateway
  exact Nat.mod_eq_of_lt (by omega)

theorem length_availableList (n : IPNet) (h30 : n.maskOnes ≤ 30)
    (hb : n.base < 2 ^ 32) (hm : n.base % n.size = 0) :
    (availableList n).length = n.size - 3 := by
  have h4 := IPNet.size_ge_four h30
  have hgw := IPNet.gateway_eq h30 hb hm
  obtain ⟨m, hm4⟩ : ∃ m, n.size = m + 4 := ⟨n.size - 4, by omega⟩
  unfold availableList
  rw [List.filter_map, List.length_map, List.range_eq_range', hm4]
  rw [show m + 4 = (m + 3) + 1 from rfl, List.range'_succ]
  rw [show m + 3 = (m + 2) + 1 from rfl, List.range'_succ]
  rw [show m + 2 = (m + 1) + 1 from rfl, List.range'_1_concat]
  rw [List.filter_cons, List.filter_cons, List.filter_append]
  have hq0 : ((fun ip => decide (ip ≠ n.base) && decide (ip ≠ n.broadcast) &&
      decide (ip ≠ n.gateway)) ∘ (fun i => n.base + i)) 0 = false := by
    simp [Function.comp]
  have hq1 : ((fun ip => decide (ip ≠ n.base) && decide (ip ≠ n.broadcast) &&
      decide (ip ≠ n.gateway)) ∘ (fun i => n.base + i)) (0 + 1) = false := by
    simp [Function.comp, hgw]
  have hqlast : ((fun ip => decide (ip ≠ n.base) && decide (ip ≠ n.broadcast) &&
      decide (ip ≠ n.gateway)) ∘ (fun i => n.base + i)) (2 + (m + 1)) = false := by
    have hbc : n.base + (2 + (m + 1)) = n.broadcast := by
      unfold IPNet.broadcast
      omega
    simp [Function.comp, hbc]
  have hmid : ∀ a ∈ List.range' 2 (m + 1),
      ((fun ip => decide (ip ≠ n.base) && decide (ip ≠ n.broadcast) &&
        decide (ip ≠ n.gateway)) ∘ (fun i => n.base + i)) a = true := by
    intro a ha
    obtain ⟨i, hi, hai⟩ := List.mem_range'.mp ha
    have ha2 : 2 ≤ a ∧ a < m + 3 := by omega
    simp only [Function.comp, Bool.and_eq_true, decide_eq_true_eq, hgw]
    unfold IPNet.broadcast
    refine ⟨⟨?_, ?_⟩, ?_⟩ <;> omega
  rw [hq0, hq1, List.filter_eq_self.mpr hmid]
  simp only [Bool.false_eq_true, if_false, List.length_append, List.length_range']
  have hqlast2 : List.filter ((fun ip => decide (ip ≠ n.base) &&
      decide (ip ≠ n.broadcast) && decide (ip ≠ n.gateway)) ∘
      (fun i => n.base + i)) [2 + (m + 1)] = [] := by
    rw [List.filter_cons, hqlast]
    simp
  rw [hqlast2]
  simp only [List.length_nil]
  omega

/-- The /30 network 192.168.100.0/30, as in the boundary scenario of the spec. -/
def net30 : IPNet := { base := 3232261120, maskOnes := 30 }

/-- The /24 network 192.168.100.0/24 from the cold-boot scenario. -/
def net24 : IPNet := { base := 3232261120, maskOnes := 24 }

/-- C5 counterexample: on a /30 network the pool construction excludes the
network address, the broadcast address AND the gateway, so `Available()` is
1, not 2 as the claim states. -/
theorem NewIPPool_slash30_counterexample :
    (NewIPPool net30).map IPPool.Available = some 1 ∧
    (NewIPPool net30).map IPPool.Available ≠ some 2 := by
  constructor
  · decide
  · decide

/-- C5 (amended): for every network with mask length between 1 and 30 pool
construction succeeds and `Available()` equals the number of host addresses
(size minus network and broadcast) minus one more for the gateway; on a /30
this value is 1: one `Allocate` succeeds, a second fails, and after releasing
the allocated address the next `Allocate` returns exactly that address. -/
theorem NewIPPool_available_count :
    (∀ n : IPNet, 1 ≤ n.maskOnes → n.maskOnes ≤ 30 → n.base < 2 ^ 32 →
      n.base % n.size = 0 →
      ∃ p, NewIPPool n = some p ∧ p.Available = ((n.size : Int) - 2) - 1) ∧
    (∃ p, NewIPPool net30 = some p ∧ p.Available = 1 ∧
      (p.Allocate).fst = some 3232261122 ∧
      ((p.Allocate).snd.Allocate).fst = none ∧
      (((p.Allocate).snd.Release 3232261122).Allocate).fst = some 3232261122) := by
  constructor
  · intro n h1 h30 hb hm
    have hlen := length_availableList n h30 hb hm
    have h4 := IPNet.size_ge_four h30
    have hne : (availableList n).isEmpty = false := by
      cases hemp : (availableList n).isEmpty with
      | false => rfl
      | true =>
        have : availableList n = [] := List.isEmpty_iff.mp hemp
        rw [this] at hlen
        simp at hlen
        omega
    refine ⟨⟨n, ∅, availableList n⟩, ?_, ?_⟩
    · unfold NewIPPool
      simp [hne]
    · unfold IPPool.Available
      simp [hlen]
      have : ((n.size - 3 : Nat) : Int) = (n.size : Int) - 3 := by
        have : 3 ≤ n.size := by omega
        push_cast [this]
        ring
      rw [this]
      ring
  · refine ⟨⟨net30, ∅, availableList net30⟩, ?_, ?_, ?_, ?_, ?_⟩ <;> decide

theorem NewIPPool_available_count_witness :
    ∃ p, NewIPPool net24 = some p ∧
      p.Available = ((net24.size : Int) - 2) - 1 :=
  NewIPPool_available_count.1 net24 (by decide) (by decide) (by decide)
    (by decide)


/-! # TAP device name and MAC address (VM.Start in internal/vm/manager.go) -/

/-- Byte k (big-endian, k < 4) of a 32-bit value, mirroring indexing into the
4-byte `net.IP` slice. -/
def ip4Byte (v : Nat) (k : Nat) : Nat := v / 256 ^ (3 - k) % 256

/-- `vmNetID := int(vm.IP[len(vm.IP)-2])*256 + int(vm.IP[len(vm.IP)-1])`. -/
def vmNetID (ip : Nat) : Nat := ip4Byte ip 2 * 256 + ip4Byte ip 3

/-- `tapName := fmt.Sprintf("sshvm-tap-%d", vmNetID)`. -/
def tapNameOf (ip : Nat) : String := "sshvm-tap-" ++ Nat.repr (vmNetID ip)

/-- Rendering of `%02x`: lowercase hexadecimal, zero-padded to width 2. -/
def hex2 (v : Nat) : String :=
  if v < 16 then "0" ++ String.mk (Nat.toDigits 16 v)
  else String.mk (Nat.toDigits 16 v)

/-- `fmt.Sprintf("02:FC:00:00:%02x:%02x", vmNetID>>8, vmNetID&0xFF)`. -/
def macOf (ip : Nat) : String :=
  "02:FC:00:00:" ++ hex2 (vmNetID ip >>> 8) ++ ":" ++ hex2 (vmNetID ip &&& 255)

/-- C7: for an IP whose last two octets are b2 and b3, the TAP device name is
`sshvm-tap-<N>` and the MAC address `02:FC:00:00:<N_hi>:<N_lo>` with
`N = b2*256 + b3` a 16-bit value, `N_hi = N / 256 = N >> 8` and
`N_lo = N % 256 = N & 0xFF`. -/
theorem tap_mac_from_ip (hi b2 b3 : Nat) (h2 : b2 < 256) (h3 : b3 < 256) :
    vmNetID (hi * 65536 + b2 * 256 + b3) = b2 * 256 + b3 ∧
    vmNetID (hi * 65536 + b2 * 256 + b3) < 65536 ∧
    tapNameOf (hi * 65536 + b2 * 256 + b3) =
      "sshvm-tap-" ++ Nat.repr (b2 * 256 + b3) ∧
    macOf (hi * 65536 + b2 * 256 + b3) =
      "02:FC:00:00:" ++ hex2 ((b2 * 256 + b3) / 256) ++ ":" ++
        hex2 ((b2 * 256 + b3) % 256) := by
  have hN : vmNetID (hi * 65536 + b2 * 256 + b3) = b2 * 256 + b3 := by
    unfold vmNetID ip4Byte
    have he1 : (256 : Nat) ^ (3 - 2) = 256 := by norm_num
    have he2 : (256 : Nat) ^ (3 - 3) = 1 := by norm_num
    rw [he1, he2]
    omega
  refine ⟨hN, by omega, ?_, ?_⟩
  · unfold tapNameOf
    rw [hN]
  · unfold macOf
    rw [hN]
    have hshift : (b2 * 256 + b3) >>> 8 = (b2 * 256 + b3) / 256 := by
      rw [Nat.shiftRight_eq_div_pow]
    have hand : (b2 * 256 + b3) &&& 255 = (b2 * 256 + b3) % 256 := by
      have := Nat.and_pow_two_sub_one_eq_mod (b2 * 256 + b3) 8
      norm_num at this
      exact this
    rw [hshift, hand]

theorem tap_mac_from_ip_witness :
    vmNetID (49320 * 65536 + 100 * 256 + 2) = 100 * 256 + 2 ∧
    vmNetID (49320 * 65536 + 100 * 256 + 2) < 65536 ∧
    tapNameOf (49320 * 65536 + 100 * 256 + 2) =
      "sshvm-tap-" ++ Nat.repr (100 * 256 + 2) ∧
    macOf (49320 * 65536 + 100 * 256 + 2) =
      "02:FC:00:00:" ++ hex2 ((100 * 256 + 2) / 256) ++ ":" ++
        hex2 ((100 * 256 + 2) % 256) :=
  tap_mac_from_ip 49320 100 2 (by decide) (by decide)


/-! # Association lists with Go map semantics (for `vms` and `vmRefs`) -/

/-- Go map read `l[k]`: value of the entry with key k, if any. -/
def lookupS {α : Type} : List (String × α) → String → Option α
  | [], _ => none
  | e :: t, k => if e.fst = k then some e.snd else lookupS t k

/-- Go `delete(l, k)`: drop the entry with key k. -/
def eraseS {α : Type} : List (String × α) → String → List (String × α)
  | [], _ => []
  | e :: t, k => if e.fst = k then eraseS t k else e :: eraseS t k

/-- Go map write `l[k] = v`: replace any entry with key k. -/
def insertS {α : Type} (l : List (String × α)) (k : String) (v : α) :
    List (String × α) :=
  (k, v) :: eraseS l k

/-- The keys of the map. -/
def keysS {α : Type} (l : List (String × α)) : List String :=
  l.map (fun e => e.fst)

theorem eraseS_cons_pos {α : Type} {e : String × α} {t : List (String × α)}
    {k : String} (h : e.fst = k) : eraseS (e :: t) k = eraseS t k := by
  simp [eraseS, h]

theorem eraseS_cons_neg {α : Type} {e : String × α} {t : List (String × α)}
    {k : String} (h : ¬ e.fst = k) : eraseS (e :: t) k = e :: eraseS t k := by
  simp [eraseS, h]

theorem lookupS_cons_pos {α : Type} {e : String × α} {t : List (String × α)}
    {k : String} (h : e.fst = k) : lookupS (e :: t) k = some e.snd := by
  simp [lookupS, h]

theorem lookupS_cons_neg {α : Type} {e : String × α} {t : List (String × α)}
    {k : String} (h : ¬ e.fst = k) : lookupS (e :: t) k = lookupS t k := by
  simp [lookupS, h]

theorem lookupS_eraseS {α : Type} (l : List (String × α)) (k k2 : String) :
    lookupS (eraseS l k) k2 = if k2 = k then none else lookupS l k2 := by
  induction l with
  | nil =>
    by_cases h2 : k2 = k <;> simp [eraseS, lookupS, h2]
  | cons e t ih =>
    by_cases hek : e.fst = k
    · rw [eraseS_cons_pos hek, ih]
      by_cases h2 : k2 = k
      · rw [if_pos h2, if_pos h2]
      · have hek2 : ¬ e.fst = k2 := by
          rw [hek]
          exact fun hh => h2 hh.symm
        rw [if_neg h2, if_neg h2, lookupS_cons_neg hek2]
    · rw [eraseS_cons_neg hek]
      by_cases hek2 : e.fst = k2
      · have h2 : ¬ k2 = k := by
          rw [← hek2]
          exact fun hh => hek hh
        rw [lookupS_cons_pos hek2, if_neg h2, lookupS_cons_pos hek2]
      · rw [lookupS_cons_neg hek2, ih]
        by_cases h2 : k2 = k
        · rw [if_pos h2, if_pos h2]
        · rw [if_neg h2, if_neg h2, lookupS_cons_neg hek2]

theorem lookupS_insertS {α : Type} (l : List (String × α)) (k k2 : String)
    (v : α) :
    lookupS (insertS l k v) k2 = if k = k2 then some v else lookupS l k2 := by
  by_cases h : k = k2
  · simp [insertS, lookupS, h]
  · have h2 : k2 ≠ k := fun hh => h hh.symm
    simp [insertS, lookupS, h, lookupS_eraseS, h2]

theorem lookupS_eq_none_iff {α : Type} (l : List (String × α)) (k : String) :
    lookupS l k = none ↔ k ∉ keysS l := by
  induction l with
  | nil => simp [lookupS, keysS]
  | cons e t ih =>
    by_cases hek : e.fst = k
    · simp [lookupS, keysS, hek]
    · have : k ≠ e.fst := fun hh => hek hh.symm
      simp [lookupS, keysS, hek, ih, this]

theorem lookupS_isSome_iff {α : Type} (l : List (String × α)) (k : String) :
    (lookupS l k).isSome = true ↔ k ∈ keysS l := by
  rw [← Option.not_isSome_iff_eq_none.not_right.symm] at *
  constructor
  · intro h
    by_contra hmem
    rw [← lookupS_eq_none_iff] at hmem
    rw [hmem] at h
    simp at h
  · intro h
    cases hL : lookupS l k with
    | none =>
      rw [lookupS_eq_none_iff] at hL
      exact absurd h hL
    | some v => simp

theorem eraseS_eq_self_of_not_mem {α : Type} {l : List (String × α)}
    {k : String} (h : k ∉ keysS l) : eraseS l k = l := by
  induction l with
  | nil => simp [eraseS]
  | cons e t ih =>
    simp only [keysS, List.map_cons, List.mem_cons, not_or] at h
    have hek : e.fst ≠ k := fun hh => h.1 hh.symm
    have ht : k ∉ keysS t := h.2
    simp [eraseS, hek, ih ht]

theorem keysS_cons {α : Type} (e : String × α) (t : List (String × α)) :
    keysS (e :: t) = e.fst :: keysS t := rfl

theorem keysS_eraseS_toFinset {α : Type} (l : List (String × α)) (k : String) :
    (keysS (eraseS l k)).toFinset = (keysS l).toFinset.erase k := by
  induction l with
  | nil => simp [eraseS, keysS]
  | cons e t ih =>
    by_cases hek : e.fst = k
    · rw [eraseS_cons_pos hek, ih, keysS_cons, List.toFinset_cons, hek,
        Finset.erase_insert_eq_erase]
    · rw [eraseS_cons_neg hek, keysS_cons, keysS_cons, List.toFinset_cons,
        List.toFinset_cons, ih, Finset.erase_insert_of_ne hek]

theorem keysS_insertS_toFinset {α : Type} (l : List (String × α)) (k : String)
    (v : α) :
    (keysS (insertS l k v)).toFinset = insert k ((keysS l).toFinset.erase k) := by
  have h1 : keysS (insertS l k v) = k :: keysS (eraseS l k) := rfl
  rw [h1, List.toFinset_cons, keysS_eraseS_toFinset]

theorem mem_keysS_eraseS {α : Type} {l : List (String × α)} {k k2 : String} :
    k2 ∈ keysS (eraseS l k) ↔ k2 ∈ keysS l ∧ k2 ≠ k := by
  rw [← List.mem_toFinset, keysS_eraseS_toFinset, Finset.mem_erase,
    List.mem_toFinset]
  tauto

theorem nodup_keysS_eraseS {α : Type} {l : List (String × α)} {k : String}
    (h : (keysS l).Nodup) : (keysS (eraseS l k)).Nodup := by
  induction l with
  | nil => simp [eraseS, keysS]
  | cons e t ih =>
    rw [keysS_cons, List.nodup_cons] at h
    by_cases hek : e.fst = k
    · rw [eraseS_cons_pos hek]
      exact ih h.2
    · rw [eraseS_cons_neg hek, keysS_cons, List.nodup_cons]
      refine ⟨?_, ih h.2⟩
      intro hmem
      exact h.1 (mem_keysS_eraseS.mp hmem).1

theorem nodup_keysS_insertS {α : Type} {l : List (String × α)} {k : String}
    (v : α) (h : (keysS l).Nodup) : (keysS (insertS l k v)).Nodup := by
  have h1 : keysS (insertS l k v) = k :: keysS (eraseS l k) := rfl
  rw [h1, List.nodup_cons]
  refine ⟨?_, nodup_keysS_eraseS h⟩
  intro hmem
  exact (mem_keysS_eraseS.mp hmem).2 rfl

theorem mem_of_mem_eraseS {α : Type} {l : List (String × α)}
    {k : String} {e : String × α} (h : e ∈ eraseS l k) : e ∈ l := by
  induction l with
  | nil => simp [eraseS] at h
  | cons a t ih =>
    by_cases hak : a.fst = k
    · rw [eraseS_cons_pos hak] at h
      exact List.mem_cons_of_mem _ (ih h)
    · rw [eraseS_cons_neg hak, List.mem_cons] at h
      cases h with
      | inl h => exact h ▸ List.mem_cons_self _ _
      | inr h => exact List.mem_cons_of_mem _ (ih h)

theorem mem_insertS {α : Type} {l : List (String × α)} {k : String} {v : α}
    {e : String × α} (h : e ∈ insertS l k v) : e = (k, v) ∨ e ∈ l := by
  simp only [insertS, List.mem_cons] at h
  cases h with
  | inl h => exact Or.inl h
  | inr h => exact Or.inr (mem_of_mem_eraseS h)

theorem lookupS_mem {α : Type} {l : List (String × α)} {k : String} {v : α}
    (h : lookupS l k = some v) : (k, v) ∈ l := by
  induction l with
  | nil => simp [lookupS] at h
  | cons e t ih =>
    by_cases hek : e.fst = k
    · rw [lookupS_cons_pos hek, Option.some_inj] at h
      have hkv : (k, v) = e := by
        rw [← hek, ← h]
      rw [hkv]
      exact List.mem_cons_self _ _
    · rw [lookupS_cons_neg hek] at h
      exact List.mem_cons_of_mem _ (ih h)

theorem length_eraseS_le {α : Type} (l : List (String × α)) (k : String) :
    (eraseS l k).length ≤ l.length := by
  induction l with
  | nil => simp [eraseS]
  | cons e t ih =>
    by_cases hek : e.fst = k
    · rw [eraseS_cons_pos hek]
      simp only [List.length_cons]
      omega
    · rw [eraseS_cons_neg hek]
      simp only [List.length_cons]
      omega


/-! # VM manager (internal/vm/manager.go) -/

/-- `filepath.Join` for a clean directory and a relative name without
separators (the only shapes that occur here). -/
def pathJoin (a b : String) : String := a ++ "/" ++ b

/-- A `VM` value as built by `createVMInternal`.  The runtime handles of the
Go struct (`machine`, `config`, `logger`) are not data and are represented by
the manager state instead. -/
structure VM where
  ID : String
  IP : Nat
  Gateway : Nat
  Netmask : Nat
  SocketPath : String
  PIDFile : String
  dataDir : String
deriving DecidableEq, Repr

/-- The fields of `internal.Config` used by the manager.  `Validate` rejects
negative `MaxConcurrentVMs`, so it is a `Nat` (0 = unlimited). -/
structure Config where
  MaxConcurrentVMs : Nat
  DataDir : String
  VMMemory : Nat
  VMCPUs : Nat
  Rootfs : String
deriving DecidableEq, Repr

/-- Success flags of the external operations performed during VM creation;
`false` injects the corresponding failure. -/
structure World where
  mkdirOk : Bool
  readRootfsOk : Bool
  writeRootfsOk : Bool
  tapOk : Bool
  mkfifoOk : Bool
  openPipeOk : Bool
  logFileOk : Bool
  newMachineOk : Bool
  machineStartOk : Bool
  pidOk : Bool
  pidWriteOk : Bool
deriving DecidableEq, Repr

/-- The error returned by `VM.Start`, tagged by the failing step. -/
inductive StartErr where
  | tapFailed
  | mkfifoFailed
  | openPipeFailed
  | logFileFailed
  | newMachineFailed
  | machineStartFailed
  | pidFailed
  | pidWriteFailed
deriving DecidableEq, Repr

/-- The errors returned by the manager operations, one per `fmt.Errorf`
site. -/
inductive MgrErr where
  | capacityReached (cap : Nat)
  | emptyID
  | invalidID (id : String)
  | idTooLong (id : String)
  | allocFailed
  | mkdirFailed
  | copyRootfsFailed
  | startFailed (e : StartErr)
  | vmNotFound (id : String)
deriving DecidableEq, Repr

/-- Manager state: the Go `Manager` struct (config, the two guarded maps and
the IP pool) together with the external resources it drives: existing per-VM
scratch directories, existing `rootfs.img` copies, existing TAP devices,
monitor processes that were started, and monitors that were asked to shut
down. -/
structure Manager where
  config : Config
  vms : List (String × VM)
  vmRefs : List (String × Int)
  ipPool : IPPool
  dirs : Finset String
  rootfsFiles : Finset String
  taps : Finset String
  started : Finset String
  shutdownSent : Finset String
deriving DecidableEq

/-- The cutset of `strings.Trim`: ASCII letters, digits, dash, underscore. -/
def allowedIDChar (c : Char) : Bool :=
  (('a' ≤ c && c ≤ 'z') || ('A' ≤ c && c ≤ 'Z') || ('0' ≤ c && c ≤ '9') ||
    c == '-' || c == '_')

/-- `len` of a Go string: the number of UTF-8 bytes of its runes. -/
def utf8Length (cs : List Char) : Nat :=
  cs.foldl (fun n c => n + c.utf8Size) 0

/-- The three validation checks at the top of `createVMInternal`, in source
order: empty, charset (`strings.Trim(vmID, cutset) != ""` holds exactly when
some rune is outside the cutset), then byte length over 48.  Returns the
error, or `none` when the id is valid.  The string is handled through its
rune list `vmID.data`. -/
def validateVMID (vmID : String) : Option MgrErr :=
  if vmID = "" then some MgrErr.emptyID
  else if !(vmID.data.all allowedIDChar) then some (MgrErr.invalidID vmID)
  else if utf8Length vmID.data > 48 then some (MgrErr.idTooLong vmID)
  else none

/-- `VM.Stop`: shut down and force-stop the monitor, remove the socket, PID
file and console pipe (kept inside the scratch directory, which remains).
Always returns nil in the source, so no error is modelled. -/
def VM.Stop (m : Manager) (vm : VM) : Manager :=
  { m with started := m.started.erase vm.ID,
           shutdownSent := insert vm.ID m.shutdownSent }

/-- `VM.Start`: set up the TAP device (deleting a stale one of the same name
first), create the console pipe and log, create the machine and start it,
then obtain the PID and write the PID file; the two failures after a
successful machine start issue `machine.Shutdown`.  No failure path removes
the TAP device. -/
def VM.Start (vm : VM) (m : Manager) (w : World) : Except StartErr Unit × Manager :=
  if !w.tapOk then (Except.error StartErr.tapFailed, m)
  else if !w.mkfifoOk then
    (Except.error StartErr.mkfifoFailed,
      { m with taps := insert (tapNameOf vm.IP) m.taps })
  else if !w.openPipeOk then
    (Except.error StartErr.openPipeFailed,
      { m with taps := insert (tapNameOf vm.IP) m.taps })
  else if !w.logFileOk then
    (Except.error StartErr.logFileFailed,
      { m with taps := insert (tapNameOf vm.IP) m.taps })
  else if !w.newMachineOk then
    (Except.error StartErr.newMachineFailed,
      { m with taps := insert (tapNameOf vm.IP) m.taps })
  else if !w.machineStartOk then
    (Except.error StartErr.machineStartFailed,
      { m with taps := insert (tapNameOf vm.IP) m.taps })
  else if !w.pidOk then
    (Except.error StartErr.pidFailed,
      { m with taps := insert (tapNameOf vm.IP) m.taps,
               started := insert vm.ID m.started,
               shutdownSent := insert vm.ID m.shutdownSent })
  else if !w.pidWriteOk then
    (Except.error StartErr.pidWriteFailed,
      { m with taps := insert (tapNameOf vm.IP) m.taps,
               started := insert vm.ID m.started,
               shutdownSent := insert vm.ID m.shutdownSent })
  else
    (Except.ok (),
      { m with taps := insert (tapNameOf vm.IP) m.taps,
               started := insert vm.ID m.started })

/-- `os.RemoveAll(vmDataDir)`: the directory disappears together with the
rootfs copy inside it. -/
def removeAllVMDir (m : Manager) (vmDataDir : String) : Manager :=
  { m with dirs := m.dirs.erase vmDataDir,
           rootfsFiles := m.rootfsFiles.erase (pathJoin vmDataDir "rootfs.img") }

/-- The rootfs-copy block of `createVMInternal`: when `rootfs.img` is absent
from the scratch directory, read the template and write the copy; `none`
models the failure of either file operation (the copy is skipped when the
file already exists, e.g. for a re-created id whose directory survived). -/
def copyRootfsStep (m : Manager) (w : World) (rootfsPath : String) :
    Option Manager :=
  if rootfsPath ∈ m.rootfsFiles then some m
  else if w.readRootfsOk && w.writeRootfsOk then
    some { m with rootfsFiles := insert rootfsPath m.rootfsFiles }
  else none

/-- The `vm.Start` call at the end of `createVMInternal` with its rollback:
on error, release the IP and remove the scratch directory. -/
def vmStartStep (m : Manager) (w : World) (vm : VM) (ip : Nat)
    (vmDataDir : String) : Except MgrErr VM × Manager :=
  match VM.Start vm m w with
  | (Except.error e, m3) =>
    (Except.error (MgrErr.startFailed e),
      removeAllVMDir { m3 with ipPool := m3.ipPool.Release ip } vmDataDir)
  | (Except.ok _, m3) => (Except.ok vm, m3)

/-- `createVMInternal`: validate the id, allocate an IP, create the scratch
directory, copy the rootfs template when `rootfs.img` is absent, then start
the VM; each failure rolls back what was built before it. -/
def Manager.createVMInternal (m : Manager) (w : World) (vmID : String) :
    Except MgrErr VM × Manager :=
  match validateVMID vmID with
  | some e => (Except.error e, m)
  | none =>
    match m.ipPool.Allocate with
    | (none, pool1) => (Except.error MgrErr.allocFailed, { m with ipPool := pool1 })
    | (some ip, pool1) =>
      if !w.mkdirOk then
        (Except.error MgrErr.mkdirFailed,
          { m with ipPool := pool1.Release ip })
      else
        match copyRootfsStep
            { m with ipPool := pool1,
                     dirs := insert (pathJoin m.config.DataDir vmID) m.dirs }
            w (pathJoin (pathJoin m.config.DataDir vmID) "rootfs.img") with
        | none =>
          (Except.error MgrErr.copyRootfsFailed,
            removeAllVMDir
              { m with ipPool := pool1.Release ip,
                       dirs := insert (pathJoin m.config.DataDir vmID) m.dirs }
              (pathJoin m.config.DataDir vmID))
        | some m2 =>
          vmStartStep m2 w
            { ID := vmID,
              IP := ip,
              Gateway := pool1.Gateway,
              Netmask := pool1.Netmask,
              SocketPath :=
                pathJoin (pathJoin m.config.DataDir vmID) "firecracker.sock",
              PIDFile :=
                pathJoin (pathJoin m.config.DataDir vmID) "firecracker.pid",
              dataDir := pathJoin m.config.DataDir vmID }
            ip (pathJoin m.config.DataDir vmID)

/-- `GetOrCreateVM`: an existing id gets its refcount incremented; otherwise
the capacity cap is checked (`0` = unlimited) and then `createVMInternal`
runs; on success the VM is inserted with refcount 1. -/
def Manager.GetOrCreateVM (m : Manager) (w : World) (vmID : String) :
    Except MgrErr VM × Manager :=
  match lookupS m.vms vmID with
  | some vm =>
    (Except.ok vm,
      { m with vmRefs :=
          insertS m.vmRefs vmID ((lookupS m.vmRefs vmID).getD 0 + 1) })
  | none =>
    if 0 < m.config.MaxConcurrentVMs ∧
        m.config.MaxConcurrentVMs ≤ m.vms.length then
      (Except.error (MgrErr.capacityReached m.config.MaxConcurrentVMs), m)
    else
      match m.createVMInternal w vmID with
      | (Except.error e, m1) => (Except.error e, m1)
      | (Except.ok vm, m1) =>
        (Except.ok vm,
          { m1 with vms := insertS m1.vms vmID vm,
                    vmRefs := insertS m1.vmRefs vmID 1 })

/-- `GetVM`: read-only lookup. -/
def Manager.GetVM (m : Manager) (vmID : String) : Option VM × Manager :=
  (lookupS m.vms vmID, m)

/-- `GetActiveVMCount`. -/
def Manager.GetActiveVMCount (m : Manager) : Nat := m.vms.length

/-- `ReleaseVM`: error when the id is absent; otherwise decrement the
refcount, and when it reaches zero stop the VM, release its IP and delete
both map entries (the `vm.Stop` error branch is dead code since `Stop`
always returns nil). -/
def Manager.ReleaseVM (m : Manager) (vmID : String) :
    Except MgrErr Unit × Manager :=
  match lookupS m.vms vmID with
  | none => (Except.error (MgrErr.vmNotFound vmID), m)
  | some vm =>
    if ((lookupS m.vmRefs vmID).getD 0 - 1 : Int) ≤ 0 then
      (Except.ok (),
        { VM.Stop
            { m with vmRefs :=
                insertS m.vmRefs vmID ((lookupS m.vmRefs vmID).getD 0 - 1) }
            vm with
          ipPool := m.ipPool.Release vm.IP,
          vms := eraseS m.vms vmID,
          vmRefs :=
            eraseS
              (insertS m.vmRefs vmID ((lookupS m.vmRefs vmID).getD 0 - 1))
              vmID })
    else
      (Except.ok (),
        { m with vmRefs :=
            insertS m.vmRefs vmID ((lookupS m.vmRefs vmID).getD 0 - 1) })

/-- `DestroyVM`: forcibly stop and remove, regardless of refcount. -/
def Manager.DestroyVM (m : Manager) (vmID : String) :
    Except MgrErr Unit × Manager :=
  match lookupS m.vms vmID with
  | none => (Except.error (MgrErr.vmNotFound vmID), m)
  | some vm =>
    (Except.ok (),
      { VM.Stop m vm with
          ipPool := m.ipPool.Release vm.IP,
          vms := eraseS m.vms vmID,
          vmRefs := eraseS m.vmRefs vmID })

/-- The invariant of C1 (plus key uniqueness, which Go maps have by
construction): both maps carry the same key set, every stored refcount is at
least 1, and the map size respects a positive cap. -/
def MgrInv (m : Manager) : Prop :=
  (keysS m.vms).Nodup ∧ (keysS m.vmRefs).Nodup ∧
  (keysS m.vms).toFinset = (keysS m.vmRefs).toFinset ∧
  (∀ e ∈ m.vmRefs, 1 ≤ e.snd) ∧
  (0 < m.config.MaxConcurrentVMs →
    m.vms.length ≤ m.config.MaxConcurrentVMs)


/-! ## Field preservation through VM creation -/

theorem fst_ne_of_mem_eraseS {α : Type} {l : List (String × α)}
    {k : String} {e : String × α} (h : e ∈ eraseS l k) : e.fst ≠ k := by
  induction l with
  | nil => simp [eraseS] at h
  | cons a t ih =>
    by_cases hak : a.fst = k
    · rw [eraseS_cons_pos hak] at h
      exact ih h
    · rw [eraseS_cons_neg hak, List.mem_cons] at h
      cases h with
      | inl h => rw [h]; exact hak
      | inr h => exact ih h

theorem VMStart_fields (vm : VM) (m : Manager) (w : World) :
    (VM.Start vm m w).snd.vms = m.vms ∧
    (VM.Start vm m w).snd.vmRefs = m.vmRefs ∧
    (VM.Start vm m w).snd.config = m.config ∧
    (VM.Start vm m w).snd.ipPool = m.ipPool ∧
    (VM.Start vm m w).snd.dirs = m.dirs ∧
    (VM.Start vm m w).snd.rootfsFiles = m.rootfsFiles := by
  obtain ⟨w1, w2, w3, w4, w5, w6, w7, w8, w9, w10, w11⟩ := w
  unfold VM.Start
  cases w4 <;> cases w5 <;> cases w6 <;> cases w7 <;> cases w8 <;> cases w9 <;>
    cases w10 <;> cases w11 <;> exact ⟨rfl, rfl, rfl, rfl, rfl, rfl⟩

theorem vmStartStep_fields (m : Manager) (w : World) (vm : VM) (ip : Nat)
    (d : String) :
    (vmStartStep m w vm ip d).snd.vms = m.vms ∧
    (vmStartStep m w vm ip d).snd.vmRefs = m.vmRefs ∧
    (vmStartStep m w vm ip d).snd.config = m.config := by
  unfold vmStartStep
  rcases hS : VM.Start vm m w with ⟨r, m3⟩
  have hf := VMStart_fields vm m w
  rw [hS] at hf
  cases r with
  | error e => exact ⟨hf.1, hf.2.1, hf.2.2.1⟩
  | ok u => exact ⟨hf.1, hf.2.1, hf.2.2.1⟩

theorem copyRootfsStep_fields {m : Manager} {w : World} {path : String}
    {m4 : Manager} (h : copyRootfsStep m w path = some m4) :
    m4.vms = m.vms ∧ m4.vmRefs = m.vmRefs ∧ m4.config = m.config := by
  unfold copyRootfsStep at h
  split at h
  · cases h
    exact ⟨rfl, rfl, rfl⟩
  · split at h
    · cases h
      exact ⟨rfl, rfl, rfl⟩
    · cases h

theorem createVMInternal_eq_invalid {m : Manager} {w : World} {vmID : String}
    {e : MgrErr} (hv : validateVMID vmID = some e) :
    m.createVMInternal w vmID = (Except.error e, m) := by
  unfold Manager.createVMInternal
  simp only [hv]

theorem createVMInternal_eq_allocFail {m : Manager} {w : World}
    {vmID : String} {pool1 : IPPool} (hv : validateVMID vmID = none)
    (hA : m.ipPool.Allocate = (none, pool1)) :
    m.createVMInternal w vmID =
      (Except.error MgrErr.allocFailed, { m with ipPool := pool1 }) := by
  unfold Manager.createVMInternal
  simp only [hv, hA]

theorem createVMInternal_eq_mkdirFail {m : Manager} {w : World}
    {vmID : String} {ip : Nat} {pool1 : IPPool}
    (hv : validateVMID vmID = none)
    (hA : m.ipPool.Allocate = (some ip, pool1)) (hw : (!w.mkdirOk) = true) :
    m.createVMInternal w vmID =
      (Except.error MgrErr.mkdirFailed,
        { m with ipPool := pool1.Release ip }) := by
  unfold Manager.createVMInternal
  simp only [hv, hA, if_pos hw]

theorem createVMInternal_eq_afterMkdir {m : Manager} {w : World}
    {vmID : String} {ip : Nat} {pool1 : IPPool}
    (hv : validateVMID vmID = none)
    (hA : m.ipPool.Allocate = (some ip, pool1)) (hw : ¬ (!w.mkdirOk) = true) :
    m.createVMInternal w vmID =
      match copyRootfsStep
          { m with ipPool := pool1,
                   dirs := insert (pathJoin m.config.DataDir vmID) m.dirs }
          w (pathJoin (pathJoin m.config.DataDir vmID) "rootfs.img") with
      | none =>
        (Except.error MgrErr.copyRootfsFailed,
          removeAllVMDir
            { m with ipPool := pool1.Release ip,
                     dirs := insert (pathJoin m.config.DataDir vmID) m.dirs }
            (pathJoin m.config.DataDir vmID))
      | some m2 =>
        vmStartStep m2 w
          { ID := vmID,
            IP := ip,
            Gateway := pool1.Gateway,
            Netmask := pool1.Netmask,
            SocketPath :=
              pathJoin (pathJoin m.config.DataDir vmID) "firecracker.sock",
            PIDFile :=
              pathJoin (pathJoin m.config.DataDir vmID) "firecracker.pid",
            dataDir := pathJoin m.config.DataDir vmID }
          ip (pathJoin m.config.DataDir vmID) := by
  unfold Manager.createVMInternal
  simp only [hv, hA, if_neg hw]

theorem createVMInternal_fields (m : Manager) (w : World) (vmID : String) :
    (m.createVMInternal w vmID).snd.vms = m.vms ∧
    (m.createVMInternal w vmID).snd.vmRefs = m.vmRefs ∧
    (m.createVMInternal w vmID).snd.config = m.config := by
  cases hv : validateVMID vmID with
  | some e =>
    rw [createVMInternal_eq_invalid hv]
    exact ⟨rfl, rfl, rfl⟩
  | none =>
    rcases hA : m.ipPool.Allocate with ⟨oip, pool1⟩
    cases oip with
    | none =>
      rw [createVMInternal_eq_allocFail hv hA]
      exact ⟨rfl, rfl, rfl⟩
    | some ip =>
      by_cases hw : (!w.mkdirOk) = true
      · rw [createVMInternal_eq_mkdirFail hv hA hw]
        exact ⟨rfl, rfl, rfl⟩
      · rw [createVMInternal_eq_afterMkdir hv hA hw]
        split
        · exact ⟨rfl, rfl, rfl⟩
        · rename_i m2 hC
          have hcf := copyRootfsStep_fields hC
          have hsf := vmStartStep_fields m2 w
            { ID := vmID,
              IP := ip,
              Gateway := pool1.Gateway,
              Netmask := pool1.Netmask,
              SocketPath :=
                pathJoin (pathJoin m.config.DataDir vmID) "firecracker.sock",
              PIDFile :=
                pathJoin (pathJoin m.config.DataDir vmID) "firecracker.pid",
              dataDir := pathJoin m.config.DataDir vmID }
            ip (pathJoin m.config.DataDir vmID)
          exact ⟨hsf.1.trans hcf.1, hsf.2.1.trans hcf.2.1,
            hsf.2.2.trans hcf.2.2⟩

theorem MgrInv_of_fields {m m2 : Manager} (h : MgrInv m)
    (hv : m2.vms = m.vms) (hr : m2.vmRefs = m.vmRefs)
    (hc : m2.config = m.config) : MgrInv m2 := by
  unfold MgrInv at h ⊢
  rw [hv, hr, hc]
  exact h


/-! ## Invariant preservation (C1) -/

theorem lookupS_refs_of_vms {m : Manager} (h : MgrInv m) {vmID : String}
    {vm : VM} (hL : lookupS m.vms vmID = some vm) :
    ∃ r, lookupS m.vmRefs vmID = some r ∧ 1 ≤ r := by
  have hmemv : vmID ∈ keysS m.vms := by
    rw [← lookupS_isSome_iff, hL]
    rfl
  have hmemr : vmID ∈ keysS m.vmRefs := by
    rw [← List.mem_toFinset, ← h.2.2.1, List.mem_toFinset]
    exact hmemv
  have hsome := (lookupS_isSome_iff m.vmRefs vmID).mpr hmemr
  cases hx : lookupS m.vmRefs vmID with
  | none => rw [hx] at hsome; simp at hsome
  | some r => exact ⟨r, rfl, h.2.2.2.1 _ (lookupS_mem hx)⟩

theorem GetOrCreateVM_eq_existing {m : Manager} {w : World} {vmID : String}
    {vm : VM} (hL : lookupS m.vms vmID = some vm) :
    m.GetOrCreateVM w vmID =
      (Except.ok vm,
        { m with vmRefs :=
            insertS m.vmRefs vmID ((lookupS m.vmRefs vmID).getD 0 + 1) }) := by
  unfold Manager.GetOrCreateVM
  simp only [hL]

theorem GetOrCreateVM_eq_capacity {m : Manager} {w : World} {vmID : String}
    (hL : lookupS m.vms vmID = none)
    (hcap : 0 < m.config.MaxConcurrentVMs ∧
      m.config.MaxConcurrentVMs ≤ m.vms.length) :
    m.GetOrCreateVM w vmID =
      (Except.error (MgrErr.capacityReached m.config.MaxConcurrentVMs), m) := by
  unfold Manager.GetOrCreateVM
  simp only [hL, if_pos hcap]

theorem GetOrCreateVM_eq_create {m : Manager} {w : World} {vmID : String}
    (hL : lookupS m.vms vmID = none)
    (hcap : ¬ (0 < m.config.MaxConcurrentVMs ∧
      m.config.MaxConcurrentVMs ≤ m.vms.length)) :
    m.GetOrCreateVM w vmID =
      match m.createVMInternal w vmID with
      | (Except.error e, m1) => (Except.error e, m1)
      | (Except.ok vm, m1) =>
        (Except.ok vm,
          { m1 with vms := insertS m1.vms vmID vm,
                    vmRefs := insertS m1.vmRefs vmID 1 }) := by
  unfold Manager.GetOrCreateVM
  simp only [hL, if_neg hcap]

theorem ReleaseVM_eq_notFound {m : Manager} {vmID : String}
    (hL : lookupS m.vms vmID = none) :
    m.ReleaseVM vmID = (Except.error (MgrErr.vmNotFound vmID), m) := by
  unfold Manager.ReleaseVM
  simp only [hL]

theorem ReleaseVM_eq_toZero {m : Manager} {vmID : String} {vm : VM}
    (hL : lookupS m.vms vmID = some vm)
    (hrc : ((lookupS m.vmRefs vmID).getD 0 - 1 : Int) ≤ 0) :
    m.ReleaseVM vmID =
      (Except.ok (),
        { VM.Stop
            { m with vmRefs :=
                insertS m.vmRefs vmID ((lookupS m.vmRefs vmID).getD 0 - 1) }
            vm with
          ipPool := m.ipPool.Release vm.IP,
          vms := eraseS m.vms vmID,
          vmRefs :=
            eraseS
              (insertS m.vmRefs vmID ((lookupS m.vmRefs vmID).getD 0 - 1))
              vmID }) := by
  unfold Manager.ReleaseVM
  simp only [hL, if_pos hrc]

theorem ReleaseVM_eq_dec {m : Manager} {vmID : String} {vm : VM}
    (hL : lookupS m.vms vmID = some vm)
    (hrc : ¬ ((lookupS m.vmRefs vmID).getD 0 - 1 : Int) ≤ 0) :
    m.ReleaseVM vmID =
      (Except.ok (),
        { m with vmRefs :=
            insertS m.vmRefs vmID ((lookupS m.vmRefs vmID).getD 0 - 1) }) := by
  unfold Manager.ReleaseVM
  simp only [hL, if_neg hrc]

theorem DestroyVM_eq_notFound {m : Manager} {vmID : String}
    (hL : lookupS m.vms vmID = none) :
    m.DestroyVM vmID = (Except.error (MgrErr.vmNotFound vmID), m) := by
  unfold Manager.DestroyVM
  simp only [hL]

theorem DestroyVM_eq_found {m : Manager} {vmID : String} {vm : VM}
    (hL : lookupS m.vms vmID = some vm) :
    m.DestroyVM vmID =
      (Except.ok (),
        { VM.Stop m vm with
            ipPool := m.ipPool.Release vm.IP,
            vms := eraseS m.vms vmID,
            vmRefs := eraseS m.vmRefs vmID }) := by
  unfold Manager.DestroyVM
  simp only [hL]

theorem GetOrCreateVM_inv (m : Manager) (h : MgrInv m) (w : World)
    (vmID : String) : MgrInv (m.GetOrCreateVM w vmID).snd := by
  obtain ⟨h1, h2, h3, h4, h5⟩ := h
  cases hL : lookupS m.vms vmID with
  | some vm =>
    rw [GetOrCreateVM_eq_existing hL]
    obtain ⟨r0, hr0, hr1⟩ := lookupS_refs_of_vms ⟨h1, h2, h3, h4, h5⟩ hL
    have hmemr : vmID ∈ keysS m.vmRefs := by
      rw [← lookupS_isSome_iff, hr0]
      rfl
    dsimp only [MgrInv]
    refine ⟨h1, nodup_keysS_insertS _ h2, ?_, ?_, h5⟩
    · rw [keysS_insertS_toFinset,
        Finset.insert_erase (List.mem_toFinset.mpr hmemr)]
      exact h3
    · intro e he
      rcases mem_insertS he with heq | hmem
      · rw [heq]
        show (1 : Int) ≤ (lookupS m.vmRefs vmID).getD 0 + 1
        rw [hr0]
        simp only [Option.getD_some]
        omega
      · exact h4 _ hmem
  | none =>
    by_cases hcap : 0 < m.config.MaxConcurrentVMs ∧
        m.config.MaxConcurrentVMs ≤ m.vms.length
    · rw [GetOrCreateVM_eq_capacity hL hcap]
      exact ⟨h1, h2, h3, h4, h5⟩
    · rw [GetOrCreateVM_eq_create hL hcap]
      rcases hC : m.createVMInternal w vmID with ⟨r1, m1⟩
      have hf := createVMInternal_fields m w vmID
      rw [hC] at hf
      dsimp only at hf
      obtain ⟨hfv, hfr, hfc⟩ := hf
      cases r1 with
      | error e => exact MgrInv_of_fields ⟨h1, h2, h3, h4, h5⟩ hfv hfr hfc
      | ok vm =>
        have hnot : vmID ∉ keysS m.vms := (lookupS_eq_none_iff _ _).mp hL
        dsimp only [MgrInv]
        rw [hfv, hfr, hfc]
        refine ⟨nodup_keysS_insertS _ h1, nodup_keysS_insertS _ h2,
          ?_, ?_, ?_⟩
        · rw [keysS_insertS_toFinset, keysS_insertS_toFinset, h3]
        · intro e he
          rcases mem_insertS he with heq | hmem
          · rw [heq]
          · exact h4 _ hmem
        · intro hpos
          have hlen : (insertS m.vms vmID vm).length = m.vms.length + 1 := by
            show (eraseS m.vms vmID).length + 1 = m.vms.length + 1
            rw [eraseS_eq_self_of_not_mem hnot]
          rw [hlen]
          rw [not_and_or] at hcap
          rcases hcap with hcap | hcap
          · exact absurd hpos hcap
          · omega

theorem ReleaseVM_inv (m : Manager) (h : MgrInv m) (vmID : String) :
    MgrInv (m.ReleaseVM vmID).snd := by
  obtain ⟨h1, h2, h3, h4, h5⟩ := h
  cases hL : lookupS m.vms vmID with
  | none =>
    rw [ReleaseVM_eq_notFound hL]
    exact ⟨h1, h2, h3, h4, h5⟩
  | some vm =>
    obtain ⟨r0, hr0, hr1⟩ :=
      lookupS_refs_of_vms ⟨h1, h2, h3, h4, h5⟩ hL
    have hmemr : vmID ∈ keysS m.vmRefs := by
      rw [← lookupS_isSome_iff, hr0]
      rfl
    by_cases hrc : ((lookupS m.vmRefs vmID).getD 0 - 1 : Int) ≤ 0
    · rw [ReleaseVM_eq_toZero hL hrc]
      dsimp only [MgrInv, VM.Stop]
      refine ⟨nodup_keysS_eraseS h1,
        nodup_keysS_eraseS (nodup_keysS_insertS _ h2), ?_, ?_, ?_⟩
      · rw [keysS_eraseS_toFinset, keysS_eraseS_toFinset,
          keysS_insertS_toFinset, Finset.erase_insert_eq_erase,
          Finset.erase_idem, h3]
      · intro e he
        have hne := fst_ne_of_mem_eraseS he
        rcases mem_insertS (mem_of_mem_eraseS he) with heq | hmem
        · rw [heq] at hne
          exact absurd rfl hne
        · exact h4 _ hmem
      · intro hpos
        calc (eraseS m.vms vmID).length ≤ m.vms.length :=
          length_eraseS_le m.vms vmID
        _ ≤ m.config.MaxConcurrentVMs := h5 hpos
    · rw [ReleaseVM_eq_dec hL hrc]
      dsimp only [MgrInv]
      refine ⟨h1, nodup_keysS_insertS _ h2, ?_, ?_, h5⟩
      · rw [keysS_insertS_toFinset,
          Finset.insert_erase (List.mem_toFinset.mpr hmemr)]
        exact h3
      · intro e he
        rcases mem_insertS he with heq | hmem
        · rw [heq]
          show (1 : Int) ≤ (lookupS m.vmRefs vmID).getD 0 - 1
          omega
        · exact h4 _ hmem

theorem DestroyVM_inv (m : Manager) (h : MgrInv m) (vmID : String) :
    MgrInv (m.DestroyVM vmID).snd := by
  obtain ⟨h1, h2, h3, h4, h5⟩ := h
  cases hL : lookupS m.vms vmID with
  | none =>
    rw [DestroyVM_eq_notFound hL]
    exact ⟨h1, h2, h3, h4, h5⟩
  | some vm =>
    rw [DestroyVM_eq_found hL]
    dsimp only [MgrInv, VM.Stop]
    refine ⟨nodup_keysS_eraseS h1, nodup_keysS_eraseS h2, ?_, ?_, ?_⟩
    · rw [keysS_eraseS_toFinset, keysS_eraseS_toFinset, h3]
    · intro e he
      exact h4 _ (mem_of_mem_eraseS he)
    · intro hpos
      calc (eraseS m.vms vmID).length ≤ m.vms.length :=
        length_eraseS_le m.vms vmID
      _ ≤ m.config.MaxConcurrentVMs := h5 hpos

/-- C1: every manager operation preserves the invariant: the `vms` and
`vmRefs` maps have the same key set (and duplicate-free keys, as Go maps
have), every stored refcount is at least 1, and when `MaxConcurrentVMs` is
positive the map holds at most that many entries. -/
theorem Manager_ops_preserve_invariant (m : Manager) (h : MgrInv m) :
    (∀ w vmID, MgrInv (m.GetOrCreateVM w vmID).snd) ∧
    (∀ vmID, MgrInv (m.ReleaseVM vmID).snd) ∧
    (∀ vmID, MgrInv (m.DestroyVM vmID).snd) ∧
    (∀ vmID, MgrInv (m.GetVM vmID).snd) :=
  ⟨fun w vmID => GetOrCreateVM_inv m h w vmID,
   fun vmID => ReleaseVM_inv m h vmID,
   fun vmID => DestroyVM_inv m h vmID,
   fun _ => h⟩


/-! ## Error-path characterisation of VM creation (for C2, C4, C9) -/

deriving instance DecidableEq for Except

theorem Allocate_none_snd {p p2 : IPPool} (h : p.Allocate = (none, p2)) :
    p2 = p := by
  cases hfind : p.available.find? (fun ip => !(decide (ip ∈ p.allocated))) with
  | some y =>
    rw [Allocate_eq_of_find?_some hfind] at h
    cases h
  | none =>
    rw [Allocate_eq_of_find?_none hfind] at h
    injection h with h1 h2
    exact h2.symm

theorem Allocate_some_release {p p2 : IPPool} {x : Nat}
    (h : p.Allocate = (some x, p2)) : p2.Release x = p := by
  cases hfind : p.available.find? (fun ip => !(decide (ip ∈ p.allocated))) with
  | none =>
    rw [Allocate_eq_of_find?_none hfind] at h
    cases h
  | some y =>
    rw [Allocate_eq_of_find?_some hfind] at h
    injection h with h1 h2
    injection h1 with h1
    subst h1
    subst h2
    have hmem : y ∉ p.allocated := by
      have := List.find?_some hfind
      simpa using this
    unfold IPPool.Release
    simp [Finset.erase_insert hmem]

theorem validateVMID_some_shape {vmID : String} {e : MgrErr}
    (h : validateVMID vmID = some e) :
    e = MgrErr.emptyID ∨ e = MgrErr.invalidID vmID ∨
      e = MgrErr.idTooLong vmID := by
  unfold validateVMID at h
  split at h
  · cases h
    exact Or.inl rfl
  · split at h
    · cases h
      exact Or.inr (Or.inl rfl)
    · split at h
      · cases h
        exact Or.inr (Or.inr rfl)
      · cases h

theorem vmStartStep_eq_err {m : Manager} {w : World} {vm : VM} {ip : Nat}
    {d : String} {se : StartErr} {m3 : Manager}
    (hS : VM.Start vm m w = (Except.error se, m3)) :
    vmStartStep m w vm ip d =
      (Except.error (MgrErr.startFailed se),
        removeAllVMDir { m3 with ipPool := m3.ipPool.Release ip } d) := by
  unfold vmStartStep
  rw [hS]

theorem vmStartStep_eq_ok {m : Manager} {w : World} {vm : VM} {ip : Nat}
    {d : String} {u : Unit} {m3 : Manager}
    (hS : VM.Start vm m w = (Except.ok u, m3)) :
    vmStartStep m w vm ip d = (Except.ok vm, m3) := by
  unfold vmStartStep
  rw [hS]

theorem copyRootfsStep_fields_all {m : Manager} {w : World} {path : String}
    {m4 : Manager} (h : copyRootfsStep m w path = some m4) :
    m4.vms = m.vms ∧ m4.vmRefs = m.vmRefs ∧ m4.config = m.config ∧
    m4.ipPool = m.ipPool ∧ m4.dirs = m.dirs ∧ m4.taps = m.taps ∧
    m4.started = m.started ∧ m4.shutdownSent = m.shutdownSent := by
  unfold copyRootfsStep at h
  split at h
  · cases h
    exact ⟨rfl, rfl, rfl, rfl, rfl, rfl, rfl, rfl⟩
  · split at h
    · cases h
      exact ⟨rfl, rfl, rfl, rfl, rfl, rfl, rfl, rfl⟩
    · cases h

theorem VMStart_err_state {vm : VM} {m : Manager} {w : World}
    {se : StartErr} {m3 : Manager}
    (h : VM.Start vm m w = (Except.error se, m3)) :
    m3.vms = m.vms ∧ m3.vmRefs = m.vmRefs ∧ m3.config = m.config ∧
    m3.ipPool = m.ipPool ∧ m3.dirs = m.dirs ∧
    m3.rootfsFiles = m.rootfsFiles ∧
    ((se = StartErr.pidFailed ∨ se = StartErr.pidWriteFailed) →
      vm.ID ∈ m3.shutdownSent) := by
  unfold VM.Start at h
  split at h
  · injection h with h1 h2
    injection h1 with h1
    subst h1
    subst h2
    exact ⟨rfl, rfl, rfl, rfl, rfl, rfl,
      by intro hor; rcases hor with h' | h' <;> cases h'⟩
  · split at h
    · injection h with h1 h2
      injection h1 with h1
      subst h1
      subst h2
      exact ⟨rfl, rfl, rfl, rfl, rfl, rfl,
        by intro hor; rcases hor with h' | h' <;> cases h'⟩
    · split at h
      · injection h with h1 h2
        injection h1 with h1
        subst h1
        subst h2
        exact ⟨rfl, rfl, rfl, rfl, rfl, rfl,
          by intro hor; rcases hor with h' | h' <;> cases h'⟩
      · split at h
        · injection h with h1 h2
          injection h1 with h1
          subst h1
          subst h2
          exact ⟨rfl, rfl, rfl, rfl, rfl, rfl,
            by intro hor; rcases hor with h' | h' <;> cases h'⟩
        · split at h
          · injection h with h1 h2
            injection h1 with h1
            subst h1
            subst h2
            exact ⟨rfl, rfl, rfl, rfl, rfl, rfl,
              by intro hor; rcases hor with h' | h' <;> cases h'⟩
          · split at h
            · injection h with h1 h2
              injection h1 with h1
              subst h1
              subst h2
              exact ⟨rfl, rfl, rfl, rfl, rfl, rfl,
                by intro hor; rcases hor with h' | h' <;> cases h'⟩
            · split at h
              · injection h with h1 h2
                injection h1 with h1
                subst h1
                subst h2
                exact ⟨rfl, rfl, rfl, rfl, rfl, rfl,
                  fun _ => Finset.mem_insert_self _ _⟩
              · split at h
                · injection h with h1 h2
                  injection h1 with h1
                  subst h1
                  subst h2
                  exact ⟨rfl, rfl, rfl, rfl, rfl, rfl,
                    fun _ => Finset.mem_insert_self _ _⟩
                · injection h with h1 h2
                  injection h1

theorem createVMInternal_err_state {m : Manager} {w : World} {vmID : String}
    {e : MgrErr} {m1 : Manager}
    (hC : m.createVMInternal w vmID = (Except.error e, m1))
    (hdir : pathJoin m.config.DataDir vmID ∉ m.dirs) :
    m1.vms = m.vms ∧ m1.vmRefs = m.vmRefs ∧ m1.config = m.config ∧
    m1.ipPool = m.ipPool ∧
    pathJoin m.config.DataDir vmID ∉ m1.dirs ∧
    (∀ se, e = MgrErr.startFailed se →
      (se = StartErr.pidFailed ∨ se = StartErr.pidWriteFailed) →
      vmID ∈ m1.shutdownSent) := by
  cases hv : validateVMID vmID with
  | some e2 =>
    rw [createVMInternal_eq_invalid hv] at hC
    injection hC with h1 h2
    injection h1 with h1
    subst h1
    subst h2
    refine ⟨rfl, rfl, rfl, rfl, hdir, ?_⟩
    intro se heq hor
    rcases validateVMID_some_shape hv with hs | hs | hs <;>
      (rw [hs] at heq; cases heq)
  | none =>
    rcases hA : m.ipPool.Allocate with ⟨oip, pool1⟩
    cases oip with
    | none =>
      rw [createVMInternal_eq_allocFail hv hA] at hC
      injection hC with h1 h2
      injection h1 with h1
      subst h1
      subst h2
      have hp : pool1 = m.ipPool := Allocate_none_snd hA
      refine ⟨rfl, rfl, rfl, hp, hdir, ?_⟩
      intro se heq hor
      cases heq
    | some ip =>
      by_cases hw : (!w.mkdirOk) = true
      · rw [createVMInternal_eq_mkdirFail hv hA hw] at hC
        injection hC with h1 h2
        injection h1 with h1
        subst h1
        subst h2
        refine ⟨rfl, rfl, rfl, Allocate_some_release hA, hdir, ?_⟩
        intro se heq hor
        cases heq
      · rw [createVMInternal_eq_afterMkdir hv hA hw] at hC
        split at hC
        · injection hC with h1 h2
          injection h1 with h1
          subst h1
          subst h2
          refine ⟨rfl, rfl, rfl, Allocate_some_release hA,
            Finset.not_mem_erase _ _, ?_⟩
          intro se heq hor
          cases heq
        · rename_i m2 hC2
          have hcf := copyRootfsStep_fields_all hC2
          rcases hS : VM.Start
              { ID := vmID,
                IP := ip,
                Gateway := pool1.Gateway,
                Netmask := pool1.Netmask,
                SocketPath :=
                  pathJoin (pathJoin m.config.DataDir vmID) "firecracker.sock",
                PIDFile :=
                  pathJoin (pathJoin m.config.DataDir vmID) "firecracker.pid",
                dataDir := pathJoin m.config.DataDir vmID }
              m2 w with ⟨r3, m3⟩
          cases r3 with
          | ok u =>
            rw [vmStartStep_eq_ok hS] at hC
            injection hC with h1 h2
            injection h1
          | error se0 =>
            rw [vmStartStep_eq_err hS] at hC
            injection hC with h1 h2
            injection h1 with h1
            subst h1
            subst h2
            have hvs := VMStart_err_state hS
            refine ⟨?_, ?_, ?_, ?_, Finset.not_mem_erase _ _, ?_⟩
            · exact (hvs.1.trans hcf.1)
            · exact (hvs.2.1.trans hcf.2.1)
            · exact (hvs.2.2.1.trans hcf.2.2.1)
            · show m3.ipPool.Release ip = m.ipPool
              rw [hvs.2.2.2.1, hcf.2.2.2.1]
              exact Allocate_some_release hA
            · intro se heq hor
              injection heq with heq
              subst heq
              exact hvs.2.2.2.2.2.2 hor


/-! # Concrete states for witnesses and counterexamples -/

/-- The pool built on 192.168.100.0/24 (default `--vm-cidr`). -/
def pool24 : IPPool :=
  { network := net24, allocated := ∅, available := availableList net24 }

/-- Configuration of the cold-boot scenario: cap 16, data dir `data`. -/
def cfg24 : Config :=
  { MaxConcurrentVMs := 16, DataDir := "data", VMMemory := 128, VMCPUs := 1,
    Rootfs := "rootfs.ext4" }

/-- A freshly constructed manager: empty maps, empty pool, no host
resources. -/
def mgr0 : Manager :=
  { config := cfg24, vms := [], vmRefs := [], ipPool := pool24, dirs := ∅,
    rootfsFiles := ∅, taps := ∅, started := ∅, shutdownSent := ∅ }

/-- The all-success world. -/
def wOK : World :=
  { mkdirOk := true, readRootfsOk := true, writeRootfsOk := true,
    tapOk := true, mkfifoOk := true, openPipeOk := true, logFileOk := true,
    newMachineOk := true, machineStartOk := true, pidOk := true,
    pidWriteOk := true }

/-- World in which `syscall.Mkfifo` for the console pipe fails. -/
def wMkfifoFail : World := { wOK with mkfifoOk := false }

/-- A VM entry as it would exist for id `a` holding 192.168.100.2. -/
def vmA : VM :=
  { ID := "a", IP := 3232261122, Gateway := 3232261121,
    Netmask := 4294967040, SocketPath := "data/a/firecracker.sock",
    PIDFile := "data/a/firecracker.pid", dataDir := "data/a" }

/-- A manager at capacity: cap 1 and one VM held with refcount 1. -/
def mgrFull : Manager :=
  { config := { cfg24 with MaxConcurrentVMs := 1 },
    vms := [("a", vmA)], vmRefs := [("a", 1)],
    ipPool := { pool24 with allocated := insert 3232261122 ∅ },
    dirs := insert "data/a" ∅, rootfsFiles := insert "data/a/rootfs.img" ∅,
    taps := insert "sshvm-tap-25602" ∅, started := insert "a" ∅,
    shutdownSent := ∅ }

instance (m : Manager) : Decidable (MgrInv m) := by
  unfold MgrInv
  infer_instance


/-! # Claim theorems on the manager -/

theorem Manager_ops_preserve_invariant_witness :
    MgrInv ((mgr0.GetOrCreateVM wOK "alice").snd) ∧
    MgrInv ((mgrFull.ReleaseVM "a").snd) :=
  ⟨(Manager_ops_preserve_invariant mgr0 (by decide)).1 wOK "alice",
   (Manager_ops_preserve_invariant mgrFull (by decide)).2.1 "a"⟩

/-- C9: releasing an id that is not in the `vms` map returns the not-found
error and leaves the whole manager state unchanged: no map entry, no
refcount, no pool change, no stop. -/
theorem ReleaseVM_missing_id (m : Manager) (vmID : String)
    (hL : lookupS m.vms vmID = none) :
    m.ReleaseVM vmID = (Except.error (MgrErr.vmNotFound vmID), m) :=
  ReleaseVM_eq_notFound hL

theorem ReleaseVM_missing_id_witness :
    mgr0.ReleaseVM "ghost" = (Except.error (MgrErr.vmNotFound "ghost"), mgr0) :=
  ReleaseVM_missing_id mgr0 "ghost" (by decide)

/-- C4 counterexample: with the map at capacity and an invalid id,
`GetOrCreateVM` returns the capacity error, not the id-validation error —
the code checks the cap before validating the id. -/
theorem GetOrCreateVM_capacity_first_counterexample :
    (mgrFull.GetOrCreateVM wOK "bad id").fst =
      Except.error (MgrErr.capacityReached 1) ∧
    validateVMID "bad id" = some (MgrErr.invalidID "bad id") ∧
    (Except.error (MgrErr.capacityReached 1) :
      Except MgrErr VM) ≠ Except.error (MgrErr.invalidID "bad id") := by
  refine ⟨?_, ?_, ?_⟩ <;> decide

/-- C4 (amended): `GetOrCreateVM` evaluates the capacity cap before
validating the id.  For an id not in the map: when the cap is positive and
the map is at capacity the call fails with the capacity error — whatever the
id — and the state is unchanged, before any validation or allocation work;
below capacity, an invalid id fails with its id-validation error (empty,
charset, length, checked in that order) with the state unchanged, before any
allocation work. -/
theorem GetOrCreateVM_capacity_before_validation (m : Manager) (w : World)
    (vmID : String) (hL : lookupS m.vms vmID = none) :
    (0 < m.config.MaxConcurrentVMs →
      m.config.MaxConcurrentVMs ≤ m.vms.length →
      m.GetOrCreateVM w vmID =
        (Except.error (MgrErr.capacityReached m.config.MaxConcurrentVMs),
          m)) ∧
    (∀ e, validateVMID vmID = some e →
      ¬ (0 < m.config.MaxConcurrentVMs ∧
        m.config.MaxConcurrentVMs ≤ m.vms.length) →
      m.GetOrCreateVM w vmID = (Except.error e, m)) := by
  constructor
  · intro hpos hlen
    exact GetOrCreateVM_eq_capacity hL ⟨hpos, hlen⟩
  · intro e hv hcap
    rw [GetOrCreateVM_eq_create hL hcap, createVMInternal_eq_invalid hv]

theorem GetOrCreateVM_capacity_before_validation_witness :
    mgrFull.GetOrCreateVM wOK "bad id" =
      (Except.error (MgrErr.capacityReached 1), mgrFull) :=
  (GetOrCreateVM_capacity_before_validation mgrFull wOK "bad id"
    (by decide)).1 (by decide) (by decide)

/-- C2 counterexample: creation of `alice` fails at the console-pipe step,
after the TAP device was created; the call returns the start error but the
TAP device `sshvm-tap-25602` is still present — the rollback does not remove
it, contradicting the claim. -/
theorem GetOrCreateVM_tap_left_counterexample :
    (mgr0.GetOrCreateVM wMkfifoFail "alice").fst =
      Except.error (MgrErr.startFailed StartErr.mkfifoFailed) ∧
    "sshvm-tap-25602" ∉ mgr0.taps ∧
    "sshvm-tap-25602" ∈ (mgr0.GetOrCreateVM wMkfifoFail "alice").snd.taps := by
  refine ⟨?_, ?_, ?_⟩ <;> decide

/-- C2 (amended): a `GetOrCreateVM` call for a new id whose creation fails
at any step (IP allocation, scratch directory, rootfs copy, or any step of
`VM.Start`) leaves both manager maps unchanged, restores the IP pool to
exactly its prior state, and removes the scratch directory (which had not
pre-existed); when the failure happened after the machine started (PID
retrieval or PID-file write), the monitor has been asked to shut down.  The
TAP device is NOT removed by this rollback (see the counterexample); a stale
device is deleted when the same name is next used. -/
theorem GetOrCreateVM_rollback (m : Manager) (w : World) (vmID : String)
    (e : MgrErr)
    (hL : lookupS m.vms vmID = none)
    (hdir : pathJoin m.config.DataDir vmID ∉ m.dirs)
    (hfail : (m.GetOrCreateVM w vmID).fst = Except.error e)
    (hnotcap : ∀ c, e ≠ MgrErr.capacityReached c) :
    (m.GetOrCreateVM w vmID).snd.vms = m.vms ∧
    (m.GetOrCreateVM w vmID).snd.vmRefs = m.vmRefs ∧
    (m.GetOrCreateVM w vmID).snd.ipPool = m.ipPool ∧
    pathJoin m.config.DataDir vmID ∉ (m.GetOrCreateVM w vmID).snd.dirs ∧
    (∀ se, e = MgrErr.startFailed se →
      (se = StartErr.pidFailed ∨ se = StartErr.pidWriteFailed) →
      vmID ∈ (m.GetOrCreateVM w vmID).snd.shutdownSent) := by
  by_cases hcap : 0 < m.config.MaxConcurrentVMs ∧
      m.config.MaxConcurrentVMs ≤ m.vms.length
  · rw [GetOrCreateVM_eq_capacity hL hcap] at hfail
    dsimp only at hfail
    injection hfail with hfail
    exact absurd hfail.symm (hnotcap _)
  · rw [GetOrCreateVM_eq_create hL hcap] at hfail ⊢
    rcases hC : m.createVMInternal w vmID with ⟨r1, m1⟩
    rw [hC] at hfail
    cases r1 with
    | ok vm =>
      dsimp only at hfail
      injection hfail
    | error e2 =>
      dsimp only at hfail ⊢
      injection hfail with hfail
      subst hfail
      exact createVMInternal_err_state hC hdir |>.2.2.2
        |> fun hrest => ⟨(createVMInternal_err_state hC hdir).1,
            (createVMInternal_err_state hC hdir).2.1,
            hrest.1, hrest.2.1, hrest.2.2⟩

theorem GetOrCreateVM_rollback_witness :
    (mgr0.GetOrCreateVM wMkfifoFail "alice").snd.vms = mgr0.vms ∧
    (mgr0.GetOrCreateVM wMkfifoFail "alice").snd.vmRefs = mgr0.vmRefs ∧
    (mgr0.GetOrCreateVM wMkfifoFail "alice").snd.ipPool = mgr0.ipPool ∧
    pathJoin mgr0.config.DataDir "alice" ∉
      (mgr0.GetOrCreateVM wMkfifoFail "alice").snd.dirs ∧
    (∀ se, MgrErr.startFailed StartErr.mkfifoFailed = MgrErr.startFailed se →
      (se = StartErr.pidFailed ∨ se = StartErr.pidWriteFailed) →
      "alice" ∈ (mgr0.GetOrCreateVM wMkfifoFail "alice").snd.shutdownSent) :=
  GetOrCreateVM_rollback mgr0 wMkfifoFail "alice"
    (MgrErr.startFailed StartErr.mkfifoFailed) (by decide) (by decide)
    (by decide) (fun c h => MgrErr.noConfusion h)

/-- C6 counterexample: the first VM of a /24 pool does get 192.168.100.2,
but its TAP device is `sshvm-tap-25602` (N = 100*256 + 2) and its MAC is
`02:FC:00:00:64:02` — not `sshvm-tap-2` / `02:FC:00:00:00:02` as the claim
states. -/
theorem cold_boot_first_vm_counterexample :
    ((mgr0.GetOrCreateVM wOK "alice").fst.toOption.map
      (fun v => tapNameOf v.IP)) ≠ some "sshvm-tap-2" ∧
    ((mgr0.GetOrCreateVM wOK "alice").fst.toOption.map
      (fun v => macOf v.IP)) ≠ some "02:FC:00:00:00:02" := by
  constructor <;> decide

/-- C6 (amended): after startup with VM CIDR 192.168.100.0/24 and an empty
pool, the first created VM is allocated 192.168.100.2 (gateway .1 excluded,
lowest free); its TAP device is `sshvm-tap-25602` and its MAC address
`02:FC:00:00:64:02`, both derived from N = 100*256 + 2 = 25602, the 16-bit
value of the last two octets. -/
theorem cold_boot_first_vm :
    ((mgr0.GetOrCreateVM wOK "alice").fst.toOption.map (fun v => v.IP)) =
      some 3232261122 ∧
    "sshvm-tap-25602" ∈ (mgr0.GetOrCreateVM wOK "alice").snd.taps ∧
    ((mgr0.GetOrCreateVM wOK "alice").fst.toOption.map
      (fun v => tapNameOf v.IP)) = some "sshvm-tap-25602" ∧
    ((mgr0.GetOrCreateVM wOK "alice").fst.toOption.map
      (fun v => macOf v.IP)) = some "02:FC:00:00:64:02" := by
  refine ⟨?_, ?_, ?_, ?_⟩ <;> decide


/-! # User statistics (server/user_stats.go, GetRecentUsers) -/

/-- A user statistics record. `time.Time` is modelled as an integer
timestamp; `Time.After` is `<` on these integers. `ConnectCount` is a Go
int. -/
structure UserStat where
  Username : String
  ConnectCount : Int
  LastConnected : Int
deriving DecidableEq, Repr

/-- The in-memory state of `UserStats`: the `users` map from username to
record, as an association list. -/
structure UserStats where
  users : List (String × UserStat)
deriving DecidableEq, Repr

/-- The collection loop of `GetRecentUsers`: a fresh copy (a new `&UserStat`
with the same three fields) of every stored record whose username differs
from `excludeUser`. -/
def recentCandidates (us : UserStats) (excludeUser : String) :
    List UserStat :=
  ((us.users.map (fun e => e.snd)).filter
      (fun u => decide (u.Username ≠ excludeUser))).map
    (fun u => { Username := u.Username, ConnectCount := u.ConnectCount,
                LastConnected := u.LastConnected })

/-- The `sort.Slice` call: sort by `LastConnected` descending (the Go sort
is an arbitrary comparison sort; it is modelled with mergeSort, which
realises the same specification). -/
def recentSorted (us : UserStats) (excludeUser : String) : List UserStat :=
  (recentCandidates us excludeUser).mergeSort
    (fun a b => decide (b.LastConnected ≤ a.LastConnected))

/-- `GetRecentUsers`: collect, sort, then truncate to `limit` entries when
`limit > 0` and more were collected. -/
def UserStats.GetRecentUsers (us : UserStats) (excludeUser : String)
    (limit : Int) : List UserStat :=
  if limit > 0 ∧ ((recentSorted us excludeUser).length : Int) > limit then
    (recentSorted us excludeUser).take limit.toNat
  else recentSorted us excludeUser

theorem mem_recentCandidates {us : UserStats} {e : String} {u : UserStat}
    (h : u ∈ recentCandidates us e) :
    (∃ k st, (k, st) ∈ us.users ∧ u = st) ∧ u.Username ≠ e := by
  unfold recentCandidates at h
  obtain ⟨v, hv, hveq⟩ := List.mem_map.mp h
  have hvu : v = u := by
    rw [← hveq]
  subst hvu
  have hmem := List.mem_filter.mp hv
  obtain ⟨p, hp, hpe⟩ := List.mem_map.mp hmem.1
  refine ⟨⟨p.fst, p.snd, hp, hpe.symm⟩, ?_⟩
  simpa using hmem.2

theorem recentSorted_pairwise (us : UserStats) (e : String) :
    (recentSorted us e).Pairwise
      (fun a b => b.LastConnected ≤ a.LastConnected) := by
  unfold recentSorted
  have hp := @List.sorted_mergeSort UserStat
    (fun a b => decide (b.LastConnected ≤ a.LastConnected))
    (fun a b c hab hbc => by
      simp only [decide_eq_true_eq] at hab hbc ⊢
      omega)
    (fun a b => by
      simp only [Bool.or_eq_true, decide_eq_true_eq]
      omega)
    (recentCandidates us e)
  refine hp.imp ?_
  intro a b hab
  simpa using hab

theorem mem_GetRecentUsers {us : UserStats} {e : String} {n : Int}
    {u : UserStat} (h : u ∈ us.GetRecentUsers e n) :
    u ∈ recentCandidates us e := by
  unfold UserStats.GetRecentUsers at h
  split at h
  · exact List.mem_mergeSort.mp (List.mem_of_mem_take h)
  · exact List.mem_mergeSort.mp h

/-- C10: with a positive limit n, `GetRecentUsers e n` returns at most n
entries, none of them named e, sorted by `LastConnected` in descending
order; every returned entry is a value-copy of a stored record (the Go code
builds fresh `&UserStat` structs, so callers never alias the stored map). -/
theorem GetRecentUsers_spec (us : UserStats) (e : String) (n : Int)
    (hn : 0 < n) :
    ((us.GetRecentUsers e n).length : Int) ≤ n ∧
    (∀ u ∈ us.GetRecentUsers e n, u.Username ≠ e) ∧
    (us.GetRecentUsers e n).Pairwise
      (fun a b => b.LastConnected ≤ a.LastConnected) ∧
    (∀ u ∈ us.GetRecentUsers e n, ∃ k st, (k, st) ∈ us.users ∧ u = st) := by
  refine ⟨?_, ?_, ?_, ?_⟩
  · unfold UserStats.GetRecentUsers
    split
    · rename_i hcond
      have hle := List.length_take_le n.toNat (recentSorted us e)
      have hnn : ((n.toNat : Nat) : Int) = n := Int.toNat_of_nonneg (by omega)
      omega
    · rename_i hcond
      rw [not_and_or] at hcond
      rcases hcond with hcond | hcond
      · exact absurd hn (by omega)
      · omega
  · intro u hu
    exact (mem_recentCandidates (mem_GetRecentUsers hu)).2
  · unfold UserStats.GetRecentUsers
    split
    · exact (recentSorted_pairwise us e).sublist (List.take_sublist _ _)
    · exact recentSorted_pairwise us e
  · intro u hu
    exact (mem_recentCandidates (mem_GetRecentUsers hu)).1

/-- Stats with three users: bob (t=100), carol (t=200) and the current user
dave (t=300). -/
def statsABC : UserStats :=
  { users :=
      [("bob", { Username := "bob", ConnectCount := 2, LastConnected := 100 }),
       ("carol",
         { Username := "carol", ConnectCount := 1, LastConnected := 200 }),
       ("dave",
         { Username := "dave", ConnectCount := 5, LastConnected := 300 })] }

theorem GetRecentUsers_spec_witness :
    ((statsABC.GetRecentUsers "dave" 1).length : Int) ≤ 1 ∧
    (∀ u ∈ statsABC.GetRecentUsers "dave" 1, u.Username ≠ "dave") ∧
    (statsABC.GetRecentUsers "dave" 1).Pairwise
      (fun a b => b.LastConnected ≤ a.LastConnected) ∧
    (∀ u ∈ statsABC.GetRecentUsers "dave" 1,
      ∃ k st, (k, st) ∈ statsABC.users ∧ u = st) :=
  GetRecentUsers_spec statsABC "dave" 1 (by decide)
